import Mathlib

/-!
Shallow embedding of the ink! lending-protocol contract
(src/lendingProtocol/lib.rs) and verification of its specification.

Modelling conventions:

* The source's `Balance` (the ink `u128`) is modelled as `Nat`; the `u128`
  overflow behaviour, which the source leaves to the Rust build profile, is
  modelled separately by the `checked` variants near the end of the
  definitions.
* `Mapping<AccountId, Balance>` is modelled as a total function
  `AccountId → Nat`; an absent key reads as `0`, exactly as the source's
  `self.m.get(&k).unwrap_or(0)` does, and `m.insert(&k, &v)` becomes
  `Function.update m k v`.
* Each `#[ink(message)]` taking `&mut self` becomes a function
  `LendingProtocol → args → LendingProtocol × Option Error`: the first
  component is the storage after the call (the source mutates `self` only
  after all of its checks, and its early `return Err(..)` leaves `self` as it
  was at that point), and the second component is the `Result` value
  (`none` for `Ok(())`, `some e` for `Err(e)`).  The implicit
  `self.env().caller()` becomes an explicit `caller` argument.
* Events are not modelled; they carry no storage state.
* The message named `initialize` in the source is rendered here as
  `reconfigure` (the spec's §4 calls the same operation `reinitialize`);
  the body is translated unchanged.
-/

abbrev AccountId := Nat

/-- The contract's `Error` enum (src/lendingProtocol/lib.rs lines 9-20). -/
inductive Error where
  | NotAuthorized
  | InsufficientBalance
  | InsufficientLiquidity
  | InsufficientCollateral
  | ContractPaused
  deriving DecidableEq, Repr

/-- The `#[ink(storage)]` struct `LendingProtocol` (lines 29-48). -/
structure LendingProtocol where
  interest_rate_model : AccountId
  underlying_asset : AccountId
  total_supply : Nat
  total_borrow : Nat
  paused : Bool
  balances : AccountId → Nat
  debts : AccountId → Nat
  collaterals : AccountId → Nat
  admin : AccountId

/-- The constructor `new` (lines 141-162): fresh state with zero totals,
empty mappings, unpaused, and the creating caller recorded as admin. -/
def new (interest_rate_model underlying_asset caller : AccountId) :
    LendingProtocol :=
  { interest_rate_model := interest_rate_model
    underlying_asset := underlying_asset
    total_supply := 0
    total_borrow := 0
    paused := false
    balances := fun _ => 0
    debts := fun _ => 0
    collaterals := fun _ => 0
    admin := caller }

/-- `only_admin` (lines 426-431): `Err(NotAuthorized)` unless the caller is
the admin. -/
def only_admin (s : LendingProtocol) (caller : AccountId) : Option Error :=
  if caller ≠ s.admin then some Error.NotAuthorized else none

/-- `not_paused` (lines 434-439): `Err(ContractPaused)` when `paused`. -/
def not_paused (s : LendingProtocol) : Option Error :=
  if s.paused then some Error.ContractPaused else none

/-- `calculate_max_borrow` (lines 442-445): 50% of collateral, truncating. -/
def calculate_max_borrow (_s : LendingProtocol) (collateral : Nat) :
    Nat :=
  collateral / 2

/-- `calculate_interest` (lines 448-451): 1% of `total_borrow`, truncating. -/
def calculate_interest (s : LendingProtocol) : Nat :=
  s.total_borrow / 100

/-- The message `initialize` (lines 166-175), rendered as `reconfigure`:
admin-only replacement of both collaborator references. -/
def reconfigure (s : LendingProtocol)
    (caller interest_rate_model underlying_asset : AccountId) :
    LendingProtocol × Option Error :=
  match only_admin s caller with
  | some e => (s, some e)
  | none =>
      let s := { s with interest_rate_model := interest_rate_model }
      let s := { s with underlying_asset := underlying_asset }
      (s, none)

/-- `deposit` (lines 179-194). -/
def deposit (s : LendingProtocol) (caller : AccountId) (amount : Nat) :
    LendingProtocol × Option Error :=
  match not_paused s with
  | some e => (s, some e)
  | none =>
      let balance := s.balances caller
      let s := { s with balances := Function.update s.balances caller (balance + amount) }
      let s := { s with total_supply := s.total_supply + amount }
      (s, none)

/-- `withdraw` (lines 198-218). -/
def withdraw (s : LendingProtocol) (caller : AccountId) (amount : Nat) :
    LendingProtocol × Option Error :=
  match not_paused s with
  | some e => (s, some e)
  | none =>
      let balance := s.balances caller
      if balance < amount then (s, some Error.InsufficientBalance)
      else
        let s := { s with balances := Function.update s.balances caller (balance - amount) }
        let s := { s with total_supply := s.total_supply - amount }
        (s, none)

/-- `borrow` (lines 222-246). -/
def borrow (s : LendingProtocol) (caller : AccountId) (amount : Nat) :
    LendingProtocol × Option Error :=
  match not_paused s with
  | some e => (s, some e)
  | none =>
      let collateral := s.collaterals caller
      let debt := s.debts caller
      let max_borrow := calculate_max_borrow s collateral
      if max_borrow < debt + amount then (s, some Error.InsufficientCollateral)
      else
        let s := { s with debts := Function.update s.debts caller (debt + amount) }
        let s := { s with total_borrow := s.total_borrow + amount }
        (s, none)

/-- `repay` (lines 250-270). -/
def repay (s : LendingProtocol) (caller : AccountId) (amount : Nat) :
    LendingProtocol × Option Error :=
  match not_paused s with
  | some e => (s, some e)
  | none =>
      let debt := s.debts caller
      if debt < amount then (s, some Error.InsufficientBalance)
      else
        let s := { s with debts := Function.update s.debts caller (debt - amount) }
        let s := { s with total_borrow := s.total_borrow - amount }
        (s, none)

/-- `liquidate` (lines 274-301).  Note: the caller is read only for the
event; the state change touches only the borrower's entries, and
`total_borrow` is not modified. -/
def liquidate (s : LendingProtocol) (_caller borrower : AccountId)
    (amount : Nat) : LendingProtocol × Option Error :=
  match not_paused s with
  | some e => (s, some e)
  | none =>
      let debt := s.debts borrower
      if debt < amount then (s, some Error.InsufficientBalance)
      else
        let collateral := s.collaterals borrower
        if collateral < amount then (s, some Error.InsufficientCollateral)
        else
          let s := { s with debts := Function.update s.debts borrower (debt - amount) }
          let s := { s with collaterals := Function.update s.collaterals borrower (collateral - amount) }
          (s, none)

/-- `accrue_interest` (lines 305-317): adds `total_borrow / 100` to
`total_borrow`; no debt entry is touched. -/
def accrue_interest (s : LendingProtocol) : LendingProtocol × Option Error :=
  match not_paused s with
  | some e => (s, some e)
  | none =>
      let interest := calculate_interest s
      let s := { s with total_borrow := s.total_borrow + interest }
      (s, none)

/-- `set_interest_rate_model` (lines 321-332). -/
def set_interest_rate_model (s : LendingProtocol)
    (caller new_model : AccountId) : LendingProtocol × Option Error :=
  match only_admin s caller with
  | some e => (s, some e)
  | none =>
      let s := { s with interest_rate_model := new_model }
      (s, none)

/-- `add_collateral` (lines 336-350). -/
def add_collateral (s : LendingProtocol) (caller : AccountId)
    (amount : Nat) : LendingProtocol × Option Error :=
  match not_paused s with
  | some e => (s, some e)
  | none =>
      let collateral := s.collaterals caller
      let s := { s with collaterals := Function.update s.collaterals caller (collateral + amount) }
      (s, none)

/-- `remove_collateral` (lines 354-373). -/
def remove_collateral (s : LendingProtocol) (caller : AccountId)
    (amount : Nat) : LendingProtocol × Option Error :=
  match not_paused s with
  | some e => (s, some e)
  | none =>
      let collateral := s.collaterals caller
      if collateral < amount then (s, some Error.InsufficientCollateral)
      else
        let s := { s with collaterals := Function.update s.collaterals caller (collateral - amount) }
        (s, none)

/-- `get_account_liquidity` (lines 377-383): saturating subtraction, which
`Nat` subtraction is. -/
def get_account_liquidity (s : LendingProtocol) (user : AccountId) : Nat :=
  s.collaterals user - s.debts user

/-- `get_total_supply` (lines 387-389). -/
def get_total_supply (s : LendingProtocol) : Nat :=
  s.total_supply

/-- `get_total_borrow` (lines 393-395). -/
def get_total_borrow (s : LendingProtocol) : Nat :=
  s.total_borrow

/-- `pause_contract` (lines 399-409). -/
def pause_contract (s : LendingProtocol) (caller : AccountId) :
    LendingProtocol × Option Error :=
  match only_admin s caller with
  | some e => (s, some e)
  | none =>
      let s := { s with paused := true }
      (s, none)

/-- `unpause_contract` (lines 413-423). -/
def unpause_contract (s : LendingProtocol) (caller : AccountId) :
    LendingProtocol × Option Error :=
  match only_admin s caller with
  | some e => (s, some e)
  | none =>
      let s := { s with paused := false }
      (s, none)

/-- One invocation of any mutating message, with its caller and arguments. -/
inductive Call where
  | reconfigure (caller interest_rate_model underlying_asset : AccountId)
  | deposit (caller : AccountId) (amount : Nat)
  | withdraw (caller : AccountId) (amount : Nat)
  | borrow (caller : AccountId) (amount : Nat)
  | repay (caller : AccountId) (amount : Nat)
  | liquidate (caller borrower : AccountId) (amount : Nat)
  | accrue_interest
  | set_interest_rate_model (caller new_model : AccountId)
  | add_collateral (caller : AccountId) (amount : Nat)
  | remove_collateral (caller : AccountId) (amount : Nat)
  | pause_contract (caller : AccountId)
  | unpause_contract (caller : AccountId)

/-- Dispatch a `Call` to the corresponding message. -/
def run_call (s : LendingProtocol) : Call → LendingProtocol × Option Error
  | .reconfigure caller irm ua => reconfigure s caller irm ua
  | .deposit caller amount => deposit s caller amount
  | .withdraw caller amount => withdraw s caller amount
  | .borrow caller amount => borrow s caller amount
  | .repay caller amount => repay s caller amount
  | .liquidate caller borrower amount => liquidate s caller borrower amount
  | .accrue_interest => accrue_interest s
  | .set_interest_rate_model caller m => set_interest_rate_model s caller m
  | .add_collateral caller amount => add_collateral s caller amount
  | .remove_collateral caller amount => remove_collateral s caller amount
  | .pause_contract caller => pause_contract s caller
  | .unpause_contract caller => unpause_contract s caller

/-- States reachable from a freshly constructed contract by finite sequences
of successful message invocations. -/
inductive Reachable : LendingProtocol → Prop where
  | init (irm ua caller : AccountId) : Reachable (new irm ua caller)
  | step {s s' : LendingProtocol} {c : Call} :
      Reachable s → run_call s c = (s', none) → Reachable s'

/-- `t` is the sum of the mapping `f` over all accounts: `f` vanishes
outside some finite set `S` and `t` is its sum over `S`. -/
def MapSum (f : AccountId → Nat) (t : Nat) : Prop :=
  ∃ S : Finset AccountId, (∀ a, a ∉ S → f a = 0) ∧ t = S.sum f

/-- The calls that keep `total_borrow` synchronised with the `debts`
mapping: all of them except `liquidate` (which lowers a borrower's debt
without lowering `total_borrow`, lines 293-295 of the source) and
`accrue_interest` (which raises `total_borrow` without touching any debt
entry, lines 310-311). -/
def debt_synced_call : Call → Bool
  | .liquidate _ _ _ => false
  | .accrue_interest => false
  | _ => true

/-- States reachable from a freshly constructed contract by finite
sequences of successful invocations of `debt_synced_call` messages. -/
inductive ReachableDebtSynced : LendingProtocol → Prop where
  | init (irm ua caller : AccountId) : ReachableDebtSynced (new irm ua caller)
  | step {s s' : LendingProtocol} {c : Call} :
      ReachableDebtSynced s → debt_synced_call c = true →
      run_call s c = (s', none) → ReachableDebtSynced s'

/-- The calls that are `deposit` or `withdraw`: per the spec, the only
ones allowed to touch `balances` or `total_supply`. -/
def supply_call : Call → Bool
  | .deposit _ _ => true
  | .withdraw _ _ => true
  | _ => false

/-- A freshly constructed ledger: admin is account 2, all mappings empty. -/
def exState0 : LendingProtocol := new 0 1 2

/-- `exState0` after account 5 adds 200 collateral. -/
def exState1 : LendingProtocol :=
  (run_call exState0 (Call.add_collateral 5 200)).1

/-- `exState1` after account 5 borrows 100 (the maximum, `200 / 2`). -/
def exState2 : LendingProtocol :=
  (run_call exState1 (Call.borrow 5 100)).1

/-- `exState2` after account 7 liquidates account 5's full position of 100:
both the debt and 100 of the collateral are cleared, but `total_borrow`
stays at 100. -/
def exState3 : LendingProtocol :=
  (run_call exState2 (Call.liquidate 7 5 100)).1

/-- `exState0` with the contract paused (as the admin would leave it after
`pause_contract`). -/
def pausedExState : LendingProtocol := { exState0 with paused := true }

/-- An unpaused ledger in which account 9 holds 201 collateral and nothing
else, so that `calculate_max_borrow` yields exactly 100. -/
def borrowExState : LendingProtocol :=
  { exState0 with collaterals := Function.update (fun _ => 0) 9 201 }

/-- An unpaused ledger in which account 4 owes 1 and holds 1 collateral:
liquidating 5 fails both checks. -/
def liquidateExState : LendingProtocol :=
  { exState0 with
      debts := Function.update (fun _ => 0) 4 1
      collaterals := Function.update (fun _ => 0) 4 1
      total_borrow := 1 }

/-- An unpaused ledger with `total_borrow = 1000`, as in the spec's
end-to-end scenario 4. -/
def accrueExState : LendingProtocol := { exState0 with total_borrow := 1000 }

/-- An unpaused ledger in which account 4 owes 50 against 200 collateral:
a comfortably over-collateralized (healthy) position, since
`50 ≤ 200 / 2`. -/
def healthyExState : LendingProtocol :=
  { exState0 with
      debts := Function.update (fun _ => 0) 4 50
      collaterals := Function.update (fun _ => 0) 4 200
      total_borrow := 50 }

/-- Modelled from the spec: the number of values of the source's `Balance`
type (`u128`).  An arithmetic result must stay below this bound. -/
def U128_LIMIT : Nat := 2 ^ 128

/-- Modelled from the spec: `u128` addition whose overflow is a fatal
validation failure (`none`), never a wrapped result.  The behaviour of the
source's plain `+` on overflow is fixed by the repository's build profile
(its `Cargo.toml`, which is not under `src/`); the spec mandates the
fatal-failure behaviour, which an ink! arithmetic panic surfaces as a
reverted call. -/
def checked_add (a b : Nat) : Option Nat :=
  if a + b < U128_LIMIT then some (a + b) else none

/-- Modelled from the spec: `deposit` with the `u128` arithmetic of lines
187-188 made explicit via `checked_add`; `none` means the call traps and
the transaction reverts with no state. -/
def deposit_checked (s : LendingProtocol) (caller : AccountId)
    (amount : Nat) : Option (LendingProtocol × Option Error) :=
  match not_paused s with
  | some e => some (s, some e)
  | none => do
      let nb ← checked_add (s.balances caller) amount
      let ns ← checked_add s.total_supply amount
      some ({ s with balances := Function.update s.balances caller nb,
                     total_supply := ns }, none)

/-- Modelled from the spec: `borrow` with the `u128` arithmetic of lines
234-240 made explicit via `checked_add`.  Note that `debt + amount` is
computed inside the collateral comparison, so its overflow traps before
`InsufficientCollateral` can be returned. -/
def borrow_checked (s : LendingProtocol) (caller : AccountId)
    (amount : Nat) : Option (LendingProtocol × Option Error) :=
  match not_paused s with
  | some e => some (s, some e)
  | none => do
      let collateral := s.collaterals caller
      let debt := s.debts caller
      let max_borrow := calculate_max_borrow s collateral
      let da ← checked_add debt amount
      if max_borrow < da then some (s, some Error.InsufficientCollateral)
      else do
        let tb ← checked_add s.total_borrow amount
        some ({ s with debts := Function.update s.debts caller da,
                       total_borrow := tb }, none)

/-- Modelled from the spec: `accrue_interest` with the `u128` addition of
line 311 made explicit via `checked_add`. -/
def accrue_interest_checked (s : LendingProtocol) :
    Option (LendingProtocol × Option Error) :=
  match not_paused s with
  | some e => some (s, some e)
  | none => do
      let interest := calculate_interest s
      let tb ← checked_add s.total_borrow interest
      some ({ s with total_borrow := tb }, none)

/-- Modelled from the spec: `add_collateral` with the `u128` addition of
line 344 (`collateral + amount`) made explicit via `checked_add`.
Together with `deposit_checked`, `borrow_checked` and
`accrue_interest_checked` this covers every addition in the source's
transitions: the remaining mutating messages (`withdraw`, `repay`,
`liquidate`, `remove_collateral`) perform only subtractions, each guarded
by the comparison immediately above it. -/
def add_collateral_checked (s : LendingProtocol) (caller : AccountId)
    (amount : Nat) : Option (LendingProtocol × Option Error) :=
  match not_paused s with
  | some e => some (s, some e)
  | none => do
      let nc ← checked_add (s.collaterals caller) amount
      some ({ s with
          collaterals := Function.update s.collaterals caller nc }, none)

/-- A ledger one unit below the `u128` capacity on account 3's balance and
collateral. -/
def overflowExState : LendingProtocol :=
  { exState0 with
      balances := Function.update (fun _ => 0) 3 (U128_LIMIT - 1)
      total_supply := U128_LIMIT - 1
      collaterals := Function.update (fun _ => 0) 3 (U128_LIMIT - 1) }

/-- Updating one entry of a finitely supported mapping changes its sum by
the difference of the new and old values; the old value is bounded by the
sum. -/
theorem mapSum_update {f : AccountId → Nat} {t : Nat}
    (hm : MapSum f t) (c : AccountId) (v : Nat) :
    f c ≤ t ∧ MapSum (Function.update f c v) (t - f c + v) := by
  obtain ⟨S, hS, ht⟩ := hm
  have hmem : c ∈ insert c S := Finset.mem_insert_self c S
  have hins : (insert c S).sum f = t := by
    by_cases hc : c ∈ S
    · rw [Finset.insert_eq_self.2 hc, ← ht]
    · rw [Finset.sum_insert hc, hS c hc, ← ht, Nat.zero_add]
  have hsplit : f c + ((insert c S).erase c).sum f = (insert c S).sum f :=
    Finset.add_sum_erase _ f hmem
  have hfc : f c ≤ t := by omega
  refine ⟨hfc, insert c S, ?_, ?_⟩
  · intro a ha
    have hne : a ≠ c := fun hh => ha (hh ▸ hmem)
    rw [Function.update_noteq hne v f]
    exact hS a (fun hh => ha (Finset.mem_insert_of_mem hh))
  · have hupd : (insert c S).sum (Function.update f c v)
        = v + ((insert c S).erase c).sum f := by
      rw [← Finset.add_sum_erase _ (Function.update f c v) hmem,
        Function.update_same]
      congr 1
      refine Finset.sum_congr rfl (fun x hx => ?_)
      exact Function.update_noteq (Finset.ne_of_mem_erase hx) v f
    rw [hupd]
    omega

/-- Every successful message invocation preserves Invariant I1:
`total_supply` is the sum of the `balances` mapping. -/
theorem run_call_preserves_I1 {s s' : LendingProtocol} {c : Call}
    (h : run_call s c = (s', none))
    (hI : MapSum s.balances s.total_supply) :
    MapSum s'.balances s'.total_supply := by
  cases c with
  | reconfigure caller irm ua =>
      by_cases ha : caller = s.admin
      · simp only [run_call, reconfigure, only_admin, ha, ne_eq,
          not_true_eq_false, if_false, Prod.mk.injEq, and_true] at h
        subst h; exact hI
      · simp [run_call, reconfigure, only_admin, ha] at h
  | deposit caller amount =>
      cases hp : s.paused with
      | true => simp [run_call, deposit, not_paused, hp] at h
      | false =>
          simp only [run_call, deposit, not_paused, hp, Bool.false_eq_true,
            if_false, Prod.mk.injEq, and_true] at h
          subst h
          obtain ⟨hle, hm⟩ := mapSum_update hI caller (s.balances caller + amount)
          have he : s.total_supply - s.balances caller
              + (s.balances caller + amount) = s.total_supply + amount := by
            omega
          show MapSum (Function.update s.balances caller
            (s.balances caller + amount)) (s.total_supply + amount)
          rwa [he] at hm
  | withdraw caller amount =>
      cases hp : s.paused with
      | true => simp [run_call, withdraw, not_paused, hp] at h
      | false =>
          by_cases hlt : s.balances caller < amount
          · simp [run_call, withdraw, not_paused, hp, hlt] at h
          · simp only [run_call, withdraw, not_paused, hp, Bool.false_eq_true,
              if_false, hlt, Prod.mk.injEq, and_true] at h
            subst h
            obtain ⟨hle, hm⟩ := mapSum_update hI caller (s.balances caller - amount)
            have he : s.total_supply - s.balances caller
                + (s.balances caller - amount) = s.total_supply - amount := by
              omega
            show MapSum (Function.update s.balances caller
              (s.balances caller - amount)) (s.total_supply - amount)
            rwa [he] at hm
  | borrow caller amount =>
      cases hp : s.paused with
      | true => simp [run_call, borrow, not_paused, hp] at h
      | false =>
          by_cases hlt : calculate_max_borrow s (s.collaterals caller)
              < s.debts caller + amount
          · simp [run_call, borrow, not_paused, hp, hlt] at h
          · simp only [run_call, borrow, not_paused, hp, Bool.false_eq_true,
              if_false, hlt, Prod.mk.injEq, and_true] at h
            subst h; exact hI
  | repay caller amount =>
      cases hp : s.paused with
      | true => simp [run_call, repay, not_paused, hp] at h
      | false =>
          by_cases hlt : s.debts caller < amount
          · simp [run_call, repay, not_paused, hp, hlt] at h
          · simp only [run_call, repay, not_paused, hp, Bool.false_eq_true,
              if_false, hlt, Prod.mk.injEq, and_true] at h
            subst h; exact hI
  | liquidate caller borrower amount =>
      cases hp : s.paused with
      | true => simp [run_call, liquidate, not_paused, hp] at h
      | false =>
          by_cases hd : s.debts borrower < amount
          · simp [run_call, liquidate, not_paused, hp, hd] at h
          · by_cases hc : s.collaterals borrower < amount
            · simp [run_call, liquidate, not_paused, hp, hd, hc] at h
            · simp only [run_call, liquidate, not_paused, hp,
                Bool.false_eq_true, if_false, hd, hc, Prod.mk.injEq,
                and_true] at h
              subst h; exact hI
  | accrue_interest =>
      cases hp : s.paused with
      | true => simp [run_call, accrue_interest, not_paused, hp] at h
      | false =>
          simp only [run_call, accrue_interest, not_paused, hp,
            Bool.false_eq_true, if_false, Prod.mk.injEq, and_true] at h
          subst h; exact hI
  | set_interest_rate_model caller m =>
      by_cases ha : caller = s.admin
      · simp only [run_call, set_interest_rate_model, only_admin, ha, ne_eq,
          not_true_eq_false, if_false, Prod.mk.injEq, and_true] at h
        subst h; exact hI
      · simp [run_call, set_interest_rate_model, only_admin, ha] at h
  | add_collateral caller amount =>
      cases hp : s.paused with
      | true => simp [run_call, add_collateral, not_paused, hp] at h
      | false =>
          simp only [run_call, add_collateral, not_paused, hp,
            Bool.false_eq_true, if_false, Prod.mk.injEq, and_true] at h
          subst h; exact hI
  | remove_collateral caller amount =>
      cases hp : s.paused with
      | true => simp [run_call, remove_collateral, not_paused, hp] at h
      | false =>
          by_cases hlt : s.collaterals caller < amount
          · simp [run_call, remove_collateral, not_paused, hp, hlt] at h
          · simp only [run_call, remove_collateral, not_paused, hp,
              Bool.false_eq_true, if_false, hlt, Prod.mk.injEq, and_true] at h
            subst h; exact hI
  | pause_contract caller =>
      by_cases ha : caller = s.admin
      · simp only [run_call, pause_contract, only_admin, ha, ne_eq,
          not_true_eq_false, if_false, Prod.mk.injEq, and_true] at h
        subst h; exact hI
      · simp [run_call, pause_contract, only_admin, ha] at h
  | unpause_contract caller =>
      by_cases ha : caller = s.admin
      · simp only [run_call, unpause_contract, only_admin, ha, ne_eq,
          not_true_eq_false, if_false, Prod.mk.injEq, and_true] at h
        subst h; exact hI
      · simp [run_call, unpause_contract, only_admin, ha] at h

/-- Successful invocations of `debt_synced_call` messages preserve
Invariant I2: `total_borrow` is the sum of the `debts` mapping. -/
theorem run_call_preserves_I2 {s s' : LendingProtocol} {c : Call}
    (hc : debt_synced_call c = true)
    (h : run_call s c = (s', none))
    (hI : MapSum s.debts s.total_borrow) :
    MapSum s'.debts s'.total_borrow := by
  cases c with
  | reconfigure caller irm ua =>
      by_cases ha : caller = s.admin
      · simp only [run_call, reconfigure, only_admin, ha, ne_eq,
          not_true_eq_false, if_false, Prod.mk.injEq, and_true] at h
        subst h; exact hI
      · simp [run_call, reconfigure, only_admin, ha] at h
  | deposit caller amount =>
      cases hp : s.paused with
      | true => simp [run_call, deposit, not_paused, hp] at h
      | false =>
          simp only [run_call, deposit, not_paused, hp, Bool.false_eq_true,
            if_false, Prod.mk.injEq, and_true] at h
          subst h; exact hI
  | withdraw caller amount =>
      cases hp : s.paused with
      | true => simp [run_call, withdraw, not_paused, hp] at h
      | false =>
          by_cases hlt : s.balances caller < amount
          · simp [run_call, withdraw, not_paused, hp, hlt] at h
          · simp only [run_call, withdraw, not_paused, hp, Bool.false_eq_true,
              if_false, hlt, Prod.mk.injEq, and_true] at h
            subst h; exact hI
  | borrow caller amount =>
      cases hp : s.paused with
      | true => simp [run_call, borrow, not_paused, hp] at h
      | false =>
          by_cases hlt : calculate_max_borrow s (s.collaterals caller)
              < s.debts caller + amount
          · simp [run_call, borrow, not_paused, hp, hlt] at h
          · simp only [run_call, borrow, not_paused, hp, Bool.false_eq_true,
              if_false, hlt, Prod.mk.injEq, and_true] at h
            subst h
            obtain ⟨hle, hm⟩ := mapSum_update hI caller (s.debts caller + amount)
            have he : s.total_borrow - s.debts caller
                + (s.debts caller + amount) = s.total_borrow + amount := by
              omega
            show MapSum (Function.update s.debts caller
              (s.debts caller + amount)) (s.total_borrow + amount)
            rwa [he] at hm
  | repay caller amount =>
      cases hp : s.paused with
      | true => simp [run_call, repay, not_paused, hp] at h
      | false =>
          by_cases hlt : s.debts caller < amount
          · simp [run_call, repay, not_paused, hp, hlt] at h
          · simp only [run_call, repay, not_paused, hp, Bool.false_eq_true,
              if_false, hlt, Prod.mk.injEq, and_true] at h
            subst h
            obtain ⟨hle, hm⟩ := mapSum_update hI caller (s.debts caller - amount)
            have he : s.total_borrow - s.debts caller
                + (s.debts caller - amount) = s.total_borrow - amount := by
              omega
            show MapSum (Function.update s.debts caller
              (s.debts caller - amount)) (s.total_borrow - amount)
            rwa [he] at hm
  | liquidate caller borrower amount => simp [debt_synced_call] at hc
  | accrue_interest => simp [debt_synced_call] at hc
  | set_interest_rate_model caller m =>
      by_cases ha : caller = s.admin
      · simp only [run_call, set_interest_rate_model, only_admin, ha, ne_eq,
          not_true_eq_false, if_false, Prod.mk.injEq, and_true] at h
        subst h; exact hI
      · simp [run_call, set_interest_rate_model, only_admin, ha] at h
  | add_collateral caller amount =>
      cases hp : s.paused with
      | true => simp [run_call, add_collateral, not_paused, hp] at h
      | false =>
          simp only [run_call, add_collateral, not_paused, hp,
            Bool.false_eq_true, if_false, Prod.mk.injEq, and_true] at h
          subst h; exact hI
  | remove_collateral caller amount =>
      cases hp : s.paused with
      | true => simp [run_call, remove_collateral, not_paused, hp] at h
      | false =>
          by_cases hlt : s.collaterals caller < amount
          · simp [run_call, remove_collateral, not_paused, hp, hlt] at h
          · simp only [run_call, remove_collateral, not_paused, hp,
              Bool.false_eq_true, if_false, hlt, Prod.mk.injEq, and_true] at h
            subst h; exact hI
  | pause_contract caller =>
      by_cases ha : caller = s.admin
      · simp only [run_call, pause_contract, only_admin, ha, ne_eq,
          not_true_eq_false, if_false, Prod.mk.injEq, and_true] at h
        subst h; exact hI
      · simp [run_call, pause_contract, only_admin, ha] at h
  | unpause_contract caller =>
      by_cases ha : caller = s.admin
      · simp only [run_call, unpause_contract, only_admin, ha, ne_eq,
          not_true_eq_false, if_false, Prod.mk.injEq, and_true] at h
        subst h; exact hI
      · simp [run_call, unpause_contract, only_admin, ha] at h

/-- C2: starting from a freshly created ledger, after every finite sequence
of successful transitions `total_supply` equals the sum of the `balances`
mapping over all accounts (Invariant I1); only `deposit` and `withdraw`
change `balances` or `total_supply`, and each changes both by the same
amount. -/
theorem C2_total_supply_eq_sum_balances :
    (∀ s : LendingProtocol, Reachable s → MapSum s.balances s.total_supply) ∧
    (∀ (s : LendingProtocol) (c : Call) (s' : LendingProtocol),
      supply_call c = false → run_call s c = (s', none) →
      s'.balances = s.balances ∧ s'.total_supply = s.total_supply) ∧
    (∀ (s : LendingProtocol) (caller : AccountId) (amount : Nat)
      (s' : LendingProtocol), deposit s caller amount = (s', none) →
      s'.balances caller = s.balances caller + amount ∧
      s'.total_supply = s.total_supply + amount) ∧
    (∀ (s : LendingProtocol) (caller : AccountId) (amount : Nat)
      (s' : LendingProtocol), withdraw s caller amount = (s', none) →
      amount ≤ s.balances caller ∧
      s'.balances caller = s.balances caller - amount ∧
      s'.total_supply = s.total_supply - amount) := by
  refine ⟨?_, ?_, ?_, ?_⟩
  · intro s h
    induction h with
    | init irm ua caller => exact ⟨∅, fun a _ => rfl, by simp [new]⟩
    | step ha hrun ih => exact run_call_preserves_I1 hrun ih
  · intro s c s' hsc h
    cases c with
    | reconfigure caller irm ua =>
        by_cases ha : caller = s.admin
        · simp only [run_call, reconfigure, only_admin, ha, ne_eq,
            not_true_eq_false, if_false, Prod.mk.injEq, and_true] at h
          subst h; exact ⟨rfl, rfl⟩
        · simp [run_call, reconfigure, only_admin, ha] at h
    | deposit caller amount => simp [supply_call] at hsc
    | withdraw caller amount => simp [supply_call] at hsc
    | borrow caller amount =>
        cases hp : s.paused with
        | true => simp [run_call, borrow, not_paused, hp] at h
        | false =>
            by_cases hlt : calculate_max_borrow s (s.collaterals caller)
                < s.debts caller + amount
            · simp [run_call, borrow, not_paused, hp, hlt] at h
            · simp only [run_call, borrow, not_paused, hp, Bool.false_eq_true,
                if_false, hlt, Prod.mk.injEq, and_true] at h
              subst h; exact ⟨rfl, rfl⟩
    | repay caller amount =>
        cases hp : s.paused with
        | true => simp [run_call, repay, not_paused, hp] at h
        | false =>
            by_cases hlt : s.debts caller < amount
            · simp [run_call, repay, not_paused, hp, hlt] at h
            · simp only [run_call, repay, not_paused, hp, Bool.false_eq_true,
                if_false, hlt, Prod.mk.injEq, and_true] at h
              subst h; exact ⟨rfl, rfl⟩
    | liquidate caller borrower amount =>
        cases hp : s.paused with
        | true => simp [run_call, liquidate, not_paused, hp] at h
        | false =>
            by_cases hd : s.debts borrower < amount
            · simp [run_call, liquidate, not_paused, hp, hd] at h
            · by_cases hcl : s.collaterals borrower < amount
              · simp [run_call, liquidate, not_paused, hp, hd, hcl] at h
              · simp only [run_call, liquidate, not_paused, hp,
                  Bool.false_eq_true, if_false, hd, hcl, Prod.mk.injEq,
                  and_true] at h
                subst h; exact ⟨rfl, rfl⟩
    | accrue_interest =>
        cases hp : s.paused with
        | true => simp [run_call, accrue_interest, not_paused, hp] at h
        | false =>
            simp only [run_call, accrue_interest, not_paused, hp,
              Bool.false_eq_true, if_false, Prod.mk.injEq, and_true] at h
            subst h; exact ⟨rfl, rfl⟩
    | set_interest_rate_model caller m =>
        by_cases ha : caller = s.admin
        · simp only [run_call, set_interest_rate_model, only_admin, ha, ne_eq,
            not_true_eq_false, if_false, Prod.mk.injEq, and_true] at h
          subst h; exact ⟨rfl, rfl⟩
        · simp [run_call, set_interest_rate_model, only_admin, ha] at h
    | add_collateral caller amount =>
        cases hp : s.paused with
        | true => simp [run_call, add_collateral, not_paused, hp] at h
        | false =>
            simp only [run_call, add_collateral, not_paused, hp,
              Bool.false_eq_true, if_false, Prod.mk.injEq, and_true] at h
            subst h; exact ⟨rfl, rfl⟩
    | remove_collateral caller amount =>
        cases hp : s.paused with
        | true => simp [run_call, remove_collateral, not_paused, hp] at h
        | false =>
            by_cases hlt : s.collaterals caller < amount
            · simp [run_call, remove_collateral, not_paused, hp, hlt] at h
            · simp only [run_call, remove_collateral, not_paused, hp,
                Bool.false_eq_true, if_false, hlt, Prod.mk.injEq,
                and_true] at h
              subst h; exact ⟨rfl, rfl⟩
    | pause_contract caller =>
        by_cases ha : caller = s.admin
        · simp only [run_call, pause_contract, only_admin, ha, ne_eq,
            not_true_eq_false, if_false, Prod.mk.injEq, and_true] at h
          subst h; exact ⟨rfl, rfl⟩
        · simp [run_call, pause_contract, only_admin, ha] at h
    | unpause_contract caller =>
        by_cases ha : caller = s.admin
        · simp only [run_call, unpause_contract, only_admin, ha, ne_eq,
            not_true_eq_false, if_false, Prod.mk.injEq, and_true] at h
          subst h; exact ⟨rfl, rfl⟩
        · simp [run_call, unpause_contract, only_admin, ha] at h
  · intro s caller amount s' h
    cases hp : s.paused with
    | true => simp [deposit, not_paused, hp] at h
    | false =>
        simp only [deposit, not_paused, hp, Bool.false_eq_true, if_false,
          Prod.mk.injEq, and_true] at h
        subst h
        exact ⟨by simp, rfl⟩
  · intro s caller amount s' h
    cases hp : s.paused with
    | true => simp [withdraw, not_paused, hp] at h
    | false =>
        by_cases hlt : s.balances caller < amount
        · simp [withdraw, not_paused, hp, hlt] at h
        · simp only [withdraw, not_paused, hp, Bool.false_eq_true, if_false,
            hlt, Prod.mk.injEq, and_true] at h
          subst h
          exact ⟨Nat.le_of_not_lt hlt, by simp, rfl⟩

/-- Witness for C2: Invariant I1 holds in the concrete reachable state
`exState1`. -/
theorem C2_total_supply_eq_sum_balances_witness :
    MapSum exState1.balances exState1.total_supply :=
  C2_total_supply_eq_sum_balances.1 exState1
    (@Reachable.step exState0 exState1 (Call.add_collateral 5 200)
      (Reachable.init 0 1 2) rfl)

/-- C1 is refuted: `exState3` is reachable (collateralize, borrow, then
liquidate) yet its `total_borrow` is 100 while its `debts` mapping sums
to 0, because `liquidate` never decreases `total_borrow`. -/
theorem C1_total_borrow_invariant_refuted :
    ¬ (∀ s : LendingProtocol, Reachable s → MapSum s.debts s.total_borrow) := by
  intro hall
  have h01 : run_call exState0 (Call.add_collateral 5 200) = (exState1, none) := rfl
  have h12 : run_call exState1 (Call.borrow 5 100) = (exState2, none) := rfl
  have h23 : run_call exState2 (Call.liquidate 7 5 100) = (exState3, none) := rfl
  have hreach : Reachable exState3 :=
    Reachable.step
      (Reachable.step (Reachable.step (Reachable.init 0 1 2) h01) h12) h23
  obtain ⟨S, hS, hsum⟩ := hall exState3 hreach
  have hdebts : ∀ a, exState3.debts a = 0 := by
    intro a
    by_cases h5 : a = 5
    · subst h5; rfl
    · have e3 : exState3.debts a
          = Function.update exState2.debts 5 (exState2.debts 5 - 100) a := rfl
      have e2 : exState2.debts a
          = Function.update exState1.debts 5 (exState1.debts 5 + 100) a := rfl
      rw [e3, Function.update_noteq h5, e2, Function.update_noteq h5]
      rfl
  have h100 : exState3.total_borrow = 100 := rfl
  have hzero : S.sum exState3.debts = 0 :=
    Finset.sum_eq_zero fun a _ => hdebts a
  rw [h100, hzero] at hsum
  exact absurd hsum (by decide)

/-- C1 (amended): `total_borrow` equals the sum of the `debts` mapping
after every finite sequence of successful transitions that avoids
`liquidate` and `accrue_interest`; those two break the equality, since
`accrue_interest` changes `total_borrow` but no debt entry, and a
successful `liquidate` lowers the borrower's debt but not `total_borrow`. -/
theorem C1_amended_total_borrow_eq_sum_debts :
    (∀ s : LendingProtocol, ReachableDebtSynced s →
      MapSum s.debts s.total_borrow) ∧
    (∀ (s s' : LendingProtocol) (r : Option Error),
      accrue_interest s = (s', r) → s'.debts = s.debts) ∧
    (∀ (s s' : LendingProtocol) (caller borrower : AccountId) (amount : Nat),
      liquidate s caller borrower amount = (s', none) →
      s'.total_borrow = s.total_borrow ∧
      s'.debts borrower = s.debts borrower - amount) := by
  refine ⟨?_, ?_, ?_⟩
  · intro s h
    induction h with
    | init irm ua caller => exact ⟨∅, fun a _ => rfl, by simp [new]⟩
    | step ha hsync hrun ih => exact run_call_preserves_I2 hsync hrun ih
  · intro s s' r h
    cases hp : s.paused with
    | true =>
        simp only [accrue_interest, not_paused, hp, if_true,
          Prod.mk.injEq] at h
        obtain ⟨h1, h2⟩ := h
        subst h1; rfl
    | false =>
        simp only [accrue_interest, not_paused, hp, Bool.false_eq_true,
          if_false, Prod.mk.injEq] at h
        obtain ⟨h1, h2⟩ := h
        subst h1; rfl
  · intro s s' caller borrower amount h
    cases hp : s.paused with
    | true => simp [liquidate, not_paused, hp] at h
    | false =>
        by_cases hd : s.debts borrower < amount
        · simp [liquidate, not_paused, hp, hd] at h
        · by_cases hcl : s.collaterals borrower < amount
          · simp [liquidate, not_paused, hp, hd, hcl] at h
          · simp only [liquidate, not_paused, hp, Bool.false_eq_true,
              if_false, hd, hcl, Prod.mk.injEq, and_true] at h
            subst h
            exact ⟨rfl, by simp⟩

/-- Witness for the amended C1: Invariant I2 holds in the concrete state
`exState2` reached by a collateral deposit followed by a borrow. -/
theorem C1_amended_total_borrow_eq_sum_debts_witness :
    MapSum exState2.debts exState2.total_borrow :=
  C1_amended_total_borrow_eq_sum_debts.1 exState2
    (@ReachableDebtSynced.step exState1 exState2 (Call.borrow 5 100)
      (@ReachableDebtSynced.step exState0 exState1 (Call.add_collateral 5 200)
        (ReachableDebtSynced.init 0 1 2) rfl rfl) rfl rfl)

/-- C3: whenever a transition returns an error (of any of the kinds
`NotAuthorized`, `InsufficientBalance`, `InsufficientCollateral`,
`ContractPaused`), the entire ledger state is left unchanged. -/
theorem C3_error_leaves_state_unchanged :
    ∀ (s : LendingProtocol) (c : Call) (s' : LendingProtocol) (e : Error),
      run_call s c = (s', some e) → s' = s := by
  intro s c s' e h
  cases c with
  | reconfigure caller irm ua =>
      by_cases ha : caller = s.admin
      · simp [run_call, reconfigure, only_admin, ha] at h
      · simp only [run_call, reconfigure, only_admin, ha, ne_eq,
          not_false_eq_true, if_true, Prod.mk.injEq] at h
        exact h.1.symm
  | deposit caller amount =>
      cases hp : s.paused with
      | true =>
          simp only [run_call, deposit, not_paused, hp, if_true,
            Prod.mk.injEq] at h
          exact h.1.symm
      | false => simp [run_call, deposit, not_paused, hp] at h
  | withdraw caller amount =>
      cases hp : s.paused with
      | true =>
          simp only [run_call, withdraw, not_paused, hp, if_true,
            Prod.mk.injEq] at h
          exact h.1.symm
      | false =>
          by_cases hlt : s.balances caller < amount
          · simp only [run_call, withdraw, not_paused, hp, Bool.false_eq_true,
              if_false, hlt, if_true, Prod.mk.injEq] at h
            exact h.1.symm
          · simp [run_call, withdraw, not_paused, hp, hlt] at h
  | borrow caller amount =>
      cases hp : s.paused with
      | true =>
          simp only [run_call, borrow, not_paused, hp, if_true,
            Prod.mk.injEq] at h
          exact h.1.symm
      | false =>
          by_cases hlt : calculate_max_borrow s (s.collaterals caller)
              < s.debts caller + amount
          · simp only [run_call, borrow, not_paused, hp, Bool.false_eq_true,
              if_false, hlt, if_true, Prod.mk.injEq] at h
            exact h.1.symm
          · simp [run_call, borrow, not_paused, hp, hlt] at h
  | repay caller amount =>
      cases hp : s.paused with
      | true =>
          simp only [run_call, repay, not_paused, hp, if_true,
            Prod.mk.injEq] at h
          exact h.1.symm
      | false =>
          by_cases hlt : s.debts caller < amount
          · simp only [run_call, repay, not_paused, hp, Bool.false_eq_true,
              if_false, hlt, if_true, Prod.mk.injEq] at h
            exact h.1.symm
          · simp [run_call, repay, not_paused, hp, hlt] at h
  | liquidate caller borrower amount =>
      cases hp : s.paused with
      | true =>
          simp only [run_call, liquidate, not_paused, hp, if_true,
            Prod.mk.injEq] at h
          exact h.1.symm
      | false =>
          by_cases hd : s.debts borrower < amount
          · simp only [run_call, liquidate, not_paused, hp,
              Bool.false_eq_true, if_false, hd, if_true, Prod.mk.injEq] at h
            exact h.1.symm
          · by_cases hcl : s.collaterals borrower < amount
            · simp only [run_call, liquidate, not_paused, hp,
                Bool.false_eq_true, if_false, hd, hcl, if_true,
                Prod.mk.injEq] at h
              exact h.1.symm
            · simp [run_call, liquidate, not_paused, hp, hd, hcl] at h
  | accrue_interest =>
      cases hp : s.paused with
      | true =>
          simp only [run_call, accrue_interest, not_paused, hp, if_true,
            Prod.mk.injEq] at h
          exact h.1.symm
      | false => simp [run_call, accrue_interest, not_paused, hp] at h
  | set_interest_rate_model caller m =>
      by_cases ha : caller = s.admin
      · simp [run_call, set_interest_rate_model, only_admin, ha] at h
      · simp only [run_call, set_interest_rate_model, only_admin, ha, ne_eq,
          not_false_eq_true, if_true, Prod.mk.injEq] at h
        exact h.1.symm
  | add_collateral caller amount =>
      cases hp : s.paused with
      | true =>
          simp only [run_call, add_collateral, not_paused, hp, if_true,
            Prod.mk.injEq] at h
          exact h.1.symm
      | false => simp [run_call, add_collateral, not_paused, hp] at h
  | remove_collateral caller amount =>
      cases hp : s.paused with
      | true =>
          simp only [run_call, remove_collateral, not_paused, hp, if_true,
            Prod.mk.injEq] at h
          exact h.1.symm
      | false =>
          by_cases hlt : s.collaterals caller < amount
          · simp only [run_call, remove_collateral, not_paused, hp,
              Bool.false_eq_true, if_false, hlt, if_true, Prod.mk.injEq] at h
            exact h.1.symm
          · simp [run_call, remove_collateral, not_paused, hp, hlt] at h
  | pause_contract caller =>
      by_cases ha : caller = s.admin
      · simp [run_call, pause_contract, only_admin, ha] at h
      · simp only [run_call, pause_contract, only_admin, ha, ne_eq,
          not_false_eq_true, if_true, Prod.mk.injEq] at h
        exact h.1.symm
  | unpause_contract caller =>
      by_cases ha : caller = s.admin
      · simp [run_call, unpause_contract, only_admin, ha] at h
      · simp only [run_call, unpause_contract, only_admin, ha, ne_eq,
          not_false_eq_true, if_true, Prod.mk.injEq] at h
        exact h.1.symm

/-- Witness for C3: the failing withdrawal (empty balance) in `exState0`
leaves the state component equal to `exState0`. -/
theorem C3_error_leaves_state_unchanged_witness :
    (run_call exState0 (Call.withdraw 1 5)).1 = exState0 :=
  C3_error_leaves_state_unchanged exState0 (Call.withdraw 1 5) _
    Error.InsufficientBalance rfl

/-- C4: when the contract is not paused, `borrow(amount)` succeeds exactly
when `debts[caller] + amount ≤ collaterals[caller] / 2` (truncating
division); on success it increases `debts[caller]` and `total_borrow` by
`amount` (and changes nothing else), and on failure it returns
`InsufficientCollateral`. -/
theorem C4_borrow_spec (s : LendingProtocol) (caller : AccountId)
    (amount : Nat) (hp : s.paused = false) :
    (s.debts caller + amount ≤ s.collaterals caller / 2 →
      borrow s caller amount =
        ({ s with
            debts := Function.update s.debts caller (s.debts caller + amount)
            total_borrow := s.total_borrow + amount }, none)) ∧
    (s.collaterals caller / 2 < s.debts caller + amount →
      borrow s caller amount = (s, some Error.InsufficientCollateral)) ∧
    ((borrow s caller amount).2 = none ↔
      s.debts caller + amount ≤ s.collaterals caller / 2) := by
  refine ⟨?_, ?_, ?_⟩
  · intro hle
    simp [borrow, not_paused, hp, calculate_max_borrow, Nat.not_lt.2 hle]
  · intro hgt
    simp [borrow, not_paused, hp, calculate_max_borrow, hgt]
  · by_cases hle : s.debts caller + amount ≤ s.collaterals caller / 2
    · simp [borrow, not_paused, hp, calculate_max_borrow, Nat.not_lt.2 hle,
        hle]
    · simp [borrow, not_paused, hp, calculate_max_borrow,
        Nat.lt_of_not_le hle, hle]

/-- Witness for C4, at the spec's boundary: with collateral 201 and no
prior debt, borrowing `201 / 2 = 100` succeeds and borrowing 101 fails
with `InsufficientCollateral`. -/
theorem C4_borrow_spec_witness :
    borrow borrowExState 9 100 =
      ({ borrowExState with
          debts := Function.update borrowExState.debts 9
            (borrowExState.debts 9 + 100)
          total_borrow := borrowExState.total_borrow + 100 }, none) ∧
    borrow borrowExState 9 101 =
      (borrowExState, some Error.InsufficientCollateral) :=
  ⟨(C4_borrow_spec borrowExState 9 100 rfl).1 (by decide),
   (C4_borrow_spec borrowExState 9 101 rfl).2.1 (by decide)⟩

/-- C5: while `paused = true`, each of the eight user transitions fails
with `ContractPaused` and changes nothing, with the pause gate evaluated
before any other validation (no hypothesis restricts balances or debts),
while the four admin transitions, called by the admin, succeed unaffected
by the pause flag. -/
theorem C5_pause_gate (s : LendingProtocol) (h : s.paused = true) :
    (∀ caller amount, deposit s caller amount
      = (s, some Error.ContractPaused)) ∧
    (∀ caller amount, withdraw s caller amount
      = (s, some Error.ContractPaused)) ∧
    (∀ caller amount, borrow s caller amount
      = (s, some Error.ContractPaused)) ∧
    (∀ caller amount, repay s caller amount
      = (s, some Error.ContractPaused)) ∧
    (∀ caller borrower amount, liquidate s caller borrower amount
      = (s, some Error.ContractPaused)) ∧
    (∀ caller amount, add_collateral s caller amount
      = (s, some Error.ContractPaused)) ∧
    (∀ caller amount, remove_collateral s caller amount
      = (s, some Error.ContractPaused)) ∧
    (accrue_interest s = (s, some Error.ContractPaused)) ∧
    (∀ m, set_interest_rate_model s s.admin m
      = ({ s with interest_rate_model := m }, none)) ∧
    (∀ m a, reconfigure s s.admin m a
      = ({ s with interest_rate_model := m, underlying_asset := a }, none)) ∧
    (pause_contract s s.admin = ({ s with paused := true }, none)) ∧
    (unpause_contract s s.admin = ({ s with paused := false }, none)) := by
  refine ⟨?_, ?_, ?_, ?_, ?_, ?_, ?_, ?_, ?_, ?_, ?_, ?_⟩
  · intro caller amount; simp [deposit, not_paused, h]
  · intro caller amount; simp [withdraw, not_paused, h]
  · intro caller amount; simp [borrow, not_paused, h]
  · intro caller amount; simp [repay, not_paused, h]
  · intro caller borrower amount; simp [liquidate, not_paused, h]
  · intro caller amount; simp [add_collateral, not_paused, h]
  · intro caller amount; simp [remove_collateral, not_paused, h]
  · simp [accrue_interest, not_paused, h]
  · intro m; simp [set_interest_rate_model, only_admin]
  · intro m a; simp [reconfigure, only_admin]
  · simp [pause_contract, only_admin]
  · simp [unpause_contract, only_admin]

/-- Witness for C5: in the concrete paused state, a withdrawal whose
balance is also insufficient still fails with `ContractPaused`, and the
admin can still unpause. -/
theorem C5_pause_gate_witness :
    pausedExState.balances 1 < 5 ∧
    withdraw pausedExState 1 5 = (pausedExState, some Error.ContractPaused) ∧
    unpause_contract pausedExState 2
      = ({ pausedExState with paused := false }, none) := by
  have hc5 := C5_pause_gate pausedExState rfl
  exact ⟨by decide, hc5.2.1 1 5, hc5.2.2.2.2.2.2.2.2.2.2.2⟩

/-- C6: each of the four admin transitions fails with `NotAuthorized` and
leaves the state unchanged when the caller is not the admin, and succeeds
in every state (the pause flag is never consulted) when the caller is the
admin. -/
theorem C6_admin_authorization (s : LendingProtocol) (caller : AccountId) :
    (caller ≠ s.admin →
      (∀ m, set_interest_rate_model s caller m
        = (s, some Error.NotAuthorized)) ∧
      (∀ m a, reconfigure s caller m a = (s, some Error.NotAuthorized)) ∧
      pause_contract s caller = (s, some Error.NotAuthorized) ∧
      unpause_contract s caller = (s, some Error.NotAuthorized)) ∧
    (caller = s.admin →
      (∀ m, set_interest_rate_model s caller m
        = ({ s with interest_rate_model := m }, none)) ∧
      (∀ m a, reconfigure s caller m a
        = ({ s with interest_rate_model := m, underlying_asset := a },
           none)) ∧
      pause_contract s caller = ({ s with paused := true }, none) ∧
      unpause_contract s caller = ({ s with paused := false }, none)) := by
  constructor
  · intro hne
    refine ⟨?_, ?_, ?_, ?_⟩
    · intro m; simp [set_interest_rate_model, only_admin, hne]
    · intro m a; simp [reconfigure, only_admin, hne]
    · simp [pause_contract, only_admin, hne]
    · simp [unpause_contract, only_admin, hne]
  · intro heq
    refine ⟨?_, ?_, ?_, ?_⟩
    · intro m; simp [set_interest_rate_model, only_admin, heq]
    · intro m a; simp [reconfigure, only_admin, heq]
    · simp [pause_contract, only_admin, heq]
    · simp [unpause_contract, only_admin, heq]

/-- Witness for C6: in the concrete paused state (admin = 2), caller 9 is
rejected by `pause_contract` with `NotAuthorized`, while the admin's
`set_interest_rate_model` succeeds even though the contract is paused. -/
theorem C6_admin_authorization_witness :
    pause_contract pausedExState 9 = (pausedExState, some Error.NotAuthorized) ∧
    set_interest_rate_model pausedExState 2 42
      = ({ pausedExState with interest_rate_model := 42 }, none) :=
  ⟨((C6_admin_authorization pausedExState 9).1 (by decide)).2.2.1,
   ((C6_admin_authorization pausedExState 2).2 (by decide)).1 42⟩

/-- C7: when the contract is not paused, `accrue_interest` always succeeds
and its only state change is `total_borrow := total_borrow +
total_borrow / 100` (truncating division). -/
theorem C7_accrue_interest_spec (s : LendingProtocol) (hp : s.paused = false) :
    accrue_interest s =
      ({ s with total_borrow := s.total_borrow + s.total_borrow / 100 },
       none) := by
  simp [accrue_interest, not_paused, calculate_interest, hp]

/-- Witness for C7, the spec's scenario 4: from `total_borrow = 1000`,
`accrue_interest` yields `total_borrow = 1010`. -/
theorem C7_accrue_interest_spec_witness :
    accrue_interest accrueExState
      = ({ accrueExState with total_borrow := 1010 }, none) := by
  have h := C7_accrue_interest_spec accrueExState rfl
  simpa using h

/-- C8: when not paused, `liquidate(borrower, amount)` checks
`debts[borrower] ≥ amount` first (failing with `InsufficientBalance`,
regardless of the collateral), only then `collaterals[borrower] ≥ amount`
(failing with `InsufficientCollateral`), and when both hold decreases the
borrower's debt and collateral each by `amount`. -/
theorem C8_liquidate_check_order (s : LendingProtocol)
    (caller borrower : AccountId) (amount : Nat) (hp : s.paused = false) :
    (s.debts borrower < amount →
      liquidate s caller borrower amount
        = (s, some Error.InsufficientBalance)) ∧
    (amount ≤ s.debts borrower → s.collaterals borrower < amount →
      liquidate s caller borrower amount
        = (s, some Error.InsufficientCollateral)) ∧
    (amount ≤ s.debts borrower → amount ≤ s.collaterals borrower →
      liquidate s caller borrower amount =
        ({ s with
            debts := Function.update s.debts borrower
              (s.debts borrower - amount)
            collaterals := Function.update s.collaterals borrower
              (s.collaterals borrower - amount) }, none)) := by
  refine ⟨?_, ?_, ?_⟩
  · intro hd
    simp [liquidate, not_paused, hp, hd]
  · intro hd hcl
    simp [liquidate, not_paused, hp, Nat.not_lt.2 hd, hcl]
  · intro hd hcl
    simp [liquidate, not_paused, hp, Nat.not_lt.2 hd, Nat.not_lt.2 hcl]

/-- Witness for C8: where debt (1) and collateral (1) are both below the
requested amount 5, the error is `InsufficientBalance` (the debt check
came first); and a full liquidation of a covered position succeeds. -/
theorem C8_liquidate_check_order_witness :
    liquidateExState.collaterals 4 < 5 ∧
    liquidate liquidateExState 7 4 5
      = (liquidateExState, some Error.InsufficientBalance) ∧
    liquidate liquidateExState 7 4 1 =
      ({ liquidateExState with
          debts := Function.update liquidateExState.debts 4
            (liquidateExState.debts 4 - 1)
          collaterals := Function.update liquidateExState.collaterals 4
            (liquidateExState.collaterals 4 - 1) }, none) :=
  ⟨by decide,
   (C8_liquidate_check_order liquidateExState 7 4 5 rfl).1 (by decide),
   (C8_liquidate_check_order liquidateExState 7 4 1 rfl).2.2 (by decide)
     (by decide)⟩

/-- C10: `liquidate` is permissionless and unconditional on position
health: its result never depends on the caller, and whenever the contract
is not paused and the borrower's debt and collateral both cover `amount`,
it succeeds — even for a healthy position with
`debts[borrower] ≤ collaterals[borrower] / 2`. -/
theorem C10_liquidate_permissionless (s : LendingProtocol)
    (caller borrower : AccountId) (amount : Nat) (hp : s.paused = false)
    (hd : amount ≤ s.debts borrower) (hcl : amount ≤ s.collaterals borrower) :
    (∀ caller2 : AccountId,
      liquidate s caller2 borrower amount
        = liquidate s caller borrower amount) ∧
    liquidate s caller borrower amount =
      ({ s with
          debts := Function.update s.debts borrower
            (s.debts borrower - amount)
          collaterals := Function.update s.collaterals borrower
            (s.collaterals borrower - amount) }, none) := by
  constructor
  · intro caller2; rfl
  · simp [liquidate, not_paused, hp, Nat.not_lt.2 hd, Nat.not_lt.2 hcl]

/-- Witness for C10: unrelated caller 7 liquidates account 4's healthy
position (debt 50, collateral 200, `50 ≤ 200 / 2`) in full. -/
theorem C10_liquidate_permissionless_witness :
    healthyExState.debts 4 ≤ healthyExState.collaterals 4 / 2 ∧
    liquidate healthyExState 7 4 50 =
      ({ healthyExState with
          debts := Function.update healthyExState.debts 4
            (healthyExState.debts 4 - 50)
          collaterals := Function.update healthyExState.collaterals 4
            (healthyExState.collaterals 4 - 50) }, none) :=
  ⟨by decide,
   (C10_liquidate_permissionless healthyExState 7 4 50 rfl (by decide)
     (by decide)).2⟩

/-- C9: in the checked `u128` model mandated by the spec, no transition
arithmetic silently wraps.  The four checked transitions cover every
addition performed by any transition of the source (`balance + amount`
and `total_supply + amount` in `deposit`, `debt + amount` and
`total_borrow + amount` in `borrow`, `total_borrow + interest` in
`accrue_interest`, `collateral + amount` in `add_collateral`; the other
mutating messages only subtract behind a guard).  Whenever a checked
transition produces a state, its new values are the exact (unwrapped,
in-range) mathematical sums, and whenever one of these additions would
reach `U128_LIMIT` the call is a fatal failure (`none`), never a
truncated state. -/
theorem C9_no_silent_wraparound (s : LendingProtocol) (caller : AccountId)
    (amount : Nat) (hp : s.paused = false) :
    (∀ (s' : LendingProtocol) (r : Option Error),
      deposit_checked s caller amount = some (s', r) →
      s'.balances caller = s.balances caller + amount ∧
      s'.total_supply = s.total_supply + amount ∧
      s'.balances caller < U128_LIMIT ∧ s'.total_supply < U128_LIMIT) ∧
    (U128_LIMIT ≤ s.balances caller + amount ∨
        U128_LIMIT ≤ s.total_supply + amount →
      deposit_checked s caller amount = none) ∧
    (∀ s' : LendingProtocol,
      borrow_checked s caller amount = some (s', none) →
      s'.debts caller = s.debts caller + amount ∧
      s'.total_borrow = s.total_borrow + amount ∧
      s'.debts caller < U128_LIMIT ∧ s'.total_borrow < U128_LIMIT) ∧
    (U128_LIMIT ≤ s.debts caller + amount →
      borrow_checked s caller amount = none) ∧
    (∀ (s' : LendingProtocol) (r : Option Error),
      accrue_interest_checked s = some (s', r) →
      s'.total_borrow = s.total_borrow + s.total_borrow / 100 ∧
      s'.total_borrow < U128_LIMIT) ∧
    (U128_LIMIT ≤ s.total_borrow + s.total_borrow / 100 →
      accrue_interest_checked s = none) ∧
    (∀ (s' : LendingProtocol) (r : Option Error),
      add_collateral_checked s caller amount = some (s', r) →
      s'.collaterals caller = s.collaterals caller + amount ∧
      s'.collaterals caller < U128_LIMIT) ∧
    (U128_LIMIT ≤ s.collaterals caller + amount →
      add_collateral_checked s caller amount = none) := by
  refine ⟨?_, ?_, ?_, ?_, ?_, ?_, ?_, ?_⟩
  · intro s' r h
    by_cases h1 : s.balances caller + amount < U128_LIMIT
    · by_cases h2 : s.total_supply + amount < U128_LIMIT
      · simp only [deposit_checked, not_paused, hp, Bool.false_eq_true,
          if_false, checked_add, h1, if_true, h2, Option.bind_eq_bind,
          Option.some_bind, Option.some.injEq, Prod.mk.injEq] at h
        obtain ⟨hs, hr⟩ := h
        subst hs
        exact ⟨by simp, rfl, by simpa using h1, h2⟩
      · simp [deposit_checked, not_paused, hp, checked_add, h1, h2] at h
    · simp [deposit_checked, not_paused, hp, checked_add, h1] at h
  · intro hor
    rcases hor with h1 | h2
    · simp [deposit_checked, not_paused, hp, checked_add, Nat.not_lt.2 h1]
    · by_cases h1 : s.balances caller + amount < U128_LIMIT
      · simp [deposit_checked, not_paused, hp, checked_add, h1,
          Nat.not_lt.2 h2]
      · simp [deposit_checked, not_paused, hp, checked_add, h1]
  · intro s' h
    by_cases h1 : s.debts caller + amount < U128_LIMIT
    · by_cases hif : calculate_max_borrow s (s.collaterals caller)
          < s.debts caller + amount
      · simp [borrow_checked, not_paused, hp, checked_add, h1, hif] at h
      · by_cases h2 : s.total_borrow + amount < U128_LIMIT
        · simp only [borrow_checked, not_paused, hp, Bool.false_eq_true,
            if_false, checked_add, h1, if_true, hif, h2, Option.bind_eq_bind,
            Option.some_bind, Option.some.injEq, Prod.mk.injEq,
            and_true] at h
          subst h
          exact ⟨by simp, rfl, by simpa using h1, h2⟩
        · simp [borrow_checked, not_paused, hp, checked_add, h1, hif,
            h2] at h
    · simp [borrow_checked, not_paused, hp, checked_add, h1] at h
  · intro hover
    simp [borrow_checked, not_paused, hp, checked_add, Nat.not_lt.2 hover]
  · intro s' r h
    by_cases h1 : s.total_borrow + s.total_borrow / 100 < U128_LIMIT
    · simp only [accrue_interest_checked, not_paused, hp, Bool.false_eq_true,
        if_false, calculate_interest, checked_add, h1, if_true,
        Option.bind_eq_bind, Option.some_bind, Option.some.injEq,
        Prod.mk.injEq] at h
      obtain ⟨hs, hr⟩ := h
      subst hs
      exact ⟨rfl, h1⟩
    · simp [accrue_interest_checked, not_paused, hp, calculate_interest,
        checked_add, h1] at h
  · intro hover
    simp [accrue_interest_checked, not_paused, hp, calculate_interest,
      checked_add, Nat.not_lt.2 hover]
  · intro s' r h
    by_cases h1 : s.collaterals caller + amount < U128_LIMIT
    · simp only [add_collateral_checked, not_paused, hp, Bool.false_eq_true,
        if_false, checked_add, h1, if_true, Option.bind_eq_bind,
        Option.some_bind, Option.some.injEq, Prod.mk.injEq] at h
      obtain ⟨hs, hr⟩ := h
      subst hs
      exact ⟨by simp, by simpa using h1⟩
    · simp [add_collateral_checked, not_paused, hp, checked_add, h1] at h
  · intro hover
    simp [add_collateral_checked, not_paused, hp, checked_add,
      Nat.not_lt.2 hover]

/-- Witness for C9: depositing 1 onto a balance of `U128_LIMIT - 1`, and
adding 1 collateral onto a collateral of `U128_LIMIT - 1`, are each a
fatal failure (`none`), not a wrapped value. -/
theorem C9_no_silent_wraparound_witness :
    deposit_checked overflowExState 3 1 = none ∧
    add_collateral_checked overflowExState 3 1 = none :=
  ⟨(C9_no_silent_wraparound overflowExState 3 1 rfl).2.1
    (Or.inl (by decide)),
   (C9_no_silent_wraparound overflowExState 3 1 rfl).2.2.2.2.2.2.2
    (by decide)⟩
